import Mathlib

/-!
Shallow embedding of the scoring / topic-extraction / comparative-ranking
engine of `server/utils/data_processor.py` (you-trend repository).

Modelling conventions:
 - Python floats (and numpy float operations) are modelled as real numbers `ℝ`.
 - Python `round` (round-half-to-even) is modelled exactly on `ℝ`.
 - `np.log1p x` is `Real.log (1 + x)`.
 - `datetime.now(...)` is passed explicitly as an integer epoch-second
   parameter `now`; publish timestamps are epoch seconds.
 - At the typed level a video/channel record is a structure whose `Option`
   fields model absent (or falsy) dictionary entries; well-formed statistics
   are natural numbers.  A second, raw level (`PyVal`, further below) models
   dictionaries as association lists with arbitrarily-typed values, for the
   claims about malformed records and dictionary key order.
-/

/-- Python `round(x)` to an integer: round-half-to-even (banker's rounding),
    modelled exactly on `ℝ`. -/
noncomputable def roundHalfEven (x : ℝ) : ℤ :=
  if x - ⌊x⌋ < 1/2 then ⌊x⌋
  else if 1/2 < x - ⌊x⌋ then ⌊x⌋ + 1
  else if Even ⌊x⌋ then ⌊x⌋ else ⌊x⌋ + 1

/-- Python `round(x, 4)`. -/
noncomputable def pyRound4 (x : ℝ) : ℝ := (roundHalfEven (x * 10000) : ℝ) / 10000

/-- Python `round(x, 2)`. -/
noncomputable def pyRound2 (x : ℝ) : ℝ := (roundHalfEven (x * 100) : ℝ) / 100

theorem roundHalfEven_intCast (n : ℤ) : roundHalfEven (n : ℝ) = n := by
  unfold roundHalfEven
  norm_num [Int.floor_intCast]

theorem roundHalfEven_nonneg {x : ℝ} (hx : 0 ≤ x) : 0 ≤ roundHalfEven x := by
  unfold roundHalfEven
  have hf : (0 : ℤ) ≤ ⌊x⌋ := Int.floor_nonneg.mpr hx
  split_ifs <;> omega

theorem roundHalfEven_le {x : ℝ} {n : ℤ} (hx : x ≤ (n : ℝ)) :
    roundHalfEven x ≤ n := by
  unfold roundHalfEven
  have hf : ⌊x⌋ ≤ n := by
    have := Int.floor_le_floor hx
    simpa [Int.floor_intCast] using this
  have hfx : (⌊x⌋ : ℝ) ≤ x := Int.floor_le x
  split_ifs with h1 h2 h3
  · exact hf
  · -- here 1/2 < x - ⌊x⌋, so ⌊x⌋ + 1 < x + 1/2 + 1 ≤ n + 3/2, integer bound
    have hlt : ((⌊x⌋ + 1 : ℤ) : ℝ) < (n : ℝ) + 1 := by
      push_cast
      linarith
    have h2i : (⌊x⌋ + 1 : ℤ) < n + 1 := by exact_mod_cast hlt
    omega
  · exact hf
  · have heq : x - ⌊x⌋ = 1/2 := le_antisymm (not_lt.mp h2) (not_lt.mp h1)
    have hlt : ((⌊x⌋ + 1 : ℤ) : ℝ) < (n : ℝ) + 1 := by
      push_cast
      linarith
    have h2i : (⌊x⌋ + 1 : ℤ) < n + 1 := by exact_mod_cast hlt
    omega

theorem pyRound4_bounds {x : ℝ} (h0 : 0 ≤ x) (h1 : x ≤ 1) :
    0 ≤ pyRound4 x ∧ pyRound4 x ≤ 1 := by
  unfold pyRound4
  have hlo : (0 : ℤ) ≤ roundHalfEven (x * 10000) :=
    roundHalfEven_nonneg (by positivity)
  have hhi : roundHalfEven (x * 10000) ≤ (10000 : ℤ) :=
    roundHalfEven_le (by push_cast; linarith)
  constructor
  · have : (0 : ℝ) ≤ (roundHalfEven (x * 10000) : ℝ) := by exact_mod_cast hlo
    positivity
  · rw [div_le_one (by norm_num)]
    exact_mod_cast hhi

theorem pyRound4_of_mul_eq {x : ℝ} {n : ℤ} (h : x * 10000 = (n : ℝ)) :
    pyRound4 x = (n : ℝ) / 10000 := by
  unfold pyRound4
  rw [h, roundHalfEven_intCast]

/-- `np.log1p`. -/
noncomputable def log1p (x : ℝ) : ℝ := Real.log (1 + x)

theorem log1p_zero : log1p 0 = 0 := by simp [log1p]

/-- `min(max(x, 0.0), 1.0)` as used by the scorers. -/
noncomputable def clamp01 (x : ℝ) : ℝ := min (max x 0) 1

theorem clamp01_bounds (x : ℝ) : 0 ≤ clamp01 x ∧ clamp01 x ≤ 1 := by
  unfold clamp01
  constructor
  · exact le_min (le_max_right x 0) (by norm_num)
  · exact min_le_right _ _

theorem clamp01_zero : clamp01 0 = 0 := by
  unfold clamp01
  rw [max_self]
  exact min_eq_left (by norm_num)

/-! ### Stable descending insertion sort

Python's `list.sort(key=..., reverse=True)` / `sorted(..., reverse=True)` is a
stable sort in descending key order.  `insertDesc lt` inserts an element before
the first element strictly below it (`lt x y` = the key of `x` is strictly
below the key of `y`); folding from the right yields a stable descending
sort. -/

def insertDesc {α : Type} (lt : α → α → Prop) [DecidableRel lt] (x : α) :
    List α → List α
  | [] => [x]
  | y :: ys => if lt x y then y :: insertDesc lt x ys else x :: y :: ys

def sortDesc {α : Type} (lt : α → α → Prop) [DecidableRel lt] (l : List α) :
    List α :=
  l.foldr (insertDesc lt) []

theorem insertDesc_perm {α : Type} (lt : α → α → Prop) [DecidableRel lt]
    (x : α) (l : List α) : (insertDesc lt x l).Perm (x :: l) := by
  induction l with
  | nil => simp [insertDesc]
  | cons y ys ih =>
      by_cases h : lt x y
      · simp only [insertDesc, if_pos h]
        exact (ih.cons y).trans (List.Perm.swap x y ys)
      · simp [insertDesc, if_neg h]

theorem sortDesc_perm {α : Type} (lt : α → α → Prop) [DecidableRel lt]
    (l : List α) : (sortDesc lt l).Perm l := by
  induction l with
  | nil => simp [sortDesc]
  | cons x xs ih =>
      have : sortDesc lt (x :: xs) = insertDesc lt x (sortDesc lt xs) := rfl
      rw [this]
      exact (insertDesc_perm lt x (sortDesc lt xs)).trans (ih.cons x)

theorem sortDesc_length {α : Type} (lt : α → α → Prop) [DecidableRel lt]
    (l : List α) : (sortDesc lt l).length = l.length :=
  (sortDesc_perm lt l).length_eq

theorem insertDesc_pairwise {α : Type} (lt : α → α → Prop) [DecidableRel lt]
    (hA : ∀ a b, lt a b → ¬ lt b a)
    (hT : ∀ a b c, ¬ lt a b → ¬ lt b c → ¬ lt a c)
    (x : α) (l : List α) (hl : l.Pairwise (fun a b => ¬ lt a b)) :
    (insertDesc lt x l).Pairwise (fun a b => ¬ lt a b) := by
  induction l with
  | nil => simp [insertDesc]
  | cons y ys ih =>
      rcases List.pairwise_cons.mp hl with ⟨hy, hys⟩
      by_cases h : lt x y
      · simp only [insertDesc, if_pos h]
        refine List.pairwise_cons.mpr ⟨?_, ih hys⟩
        intro z hz
        have hz' := (insertDesc_perm lt x ys).mem_iff.mp hz
        rcases List.mem_cons.mp hz' with heq | hzys
        · rw [heq]; exact hA x y h
        · exact hy z hzys
      · simp only [insertDesc, if_neg h]
        refine List.pairwise_cons.mpr ⟨?_, hl⟩
        intro z hz
        rcases List.mem_cons.mp hz with heq | hzys
        · rw [heq]; exact h
        · exact hT x y z h (hy z hzys)

theorem sortDesc_pairwise {α : Type} (lt : α → α → Prop) [DecidableRel lt]
    (hA : ∀ a b, lt a b → ¬ lt b a)
    (hT : ∀ a b c, ¬ lt a b → ¬ lt b c → ¬ lt a c)
    (l : List α) : (sortDesc lt l).Pairwise (fun a b => ¬ lt a b) := by
  induction l with
  | nil => simp [sortDesc]
  | cons x xs ih => exact insertDesc_pairwise lt hA hT x (sortDesc lt xs) ih

/-! ### Typed data model (well-formed records)

A `Video` models a video resource dictionary from the YouTube API as consumed
by `data_processor.py`.  `Option` fields are `none` when the corresponding
dictionary entry is absent (or, for `stats`, when `statistics` is absent or an
empty — hence falsy — dict).  `publishedAt` is the already-parsed publish
timestamp in epoch seconds; `none` stands for an absent or unparseable
`snippet.publishedAt` (both yield the same behaviour in the source). -/

structure Stats where
  viewCount : ℕ
  likeCount : ℕ
  commentCount : ℕ
deriving DecidableEq, Repr

structure Video where
  id : String
  title : Option String
  channelId : Option String
  channelTitle : Option String
  publishedAt : Option ℤ
  stats : Option Stats
deriving DecidableEq, Repr

def Video.views (v : Video) : ℕ := (v.stats.map Stats.viewCount).getD 0
def Video.likes (v : Video) : ℕ := (v.stats.map Stats.likeCount).getD 0
def Video.comments (v : Video) : ℕ := (v.stats.map Stats.commentCount).getD 0

structure ChStats where
  subscriberCount : ℕ
  videoCount : ℕ
  viewCount : ℕ
deriving DecidableEq, Repr

structure Channel where
  id : Option String
  title : Option String
  publishedAt : Option ℤ
  stats : Option ChStats
deriving DecidableEq, Repr

def Channel.subs (c : Channel) : ℕ := (c.stats.map ChStats.subscriberCount).getD 0

/-! ### `calculate_video_score` (lines 36-101) -/

/-- Engagement rate `(likes + comments) / views` when `views > 0`, else `0.0`
    (lines 60-63). -/
noncomputable def engagementRate (v : Video) : ℝ :=
  if 0 < v.views then ((v.likes : ℝ) + (v.comments : ℝ)) / (v.views : ℝ) else 0

/-- Recency score (lines 65-82): `1 / (1 + days_since_published)` when the
    publish date parses and is not in the future, else `0.0`.
    `days_since_published` is `timedelta.days`, i.e. the floor of the second
    difference divided by 86400. -/
noncomputable def recencyScore (now : ℤ) (v : Video) : ℝ :=
  match v.publishedAt with
  | none => 0
  | some t =>
      let d := Int.fdiv (now - t) 86400
      if 0 ≤ d then 1 / (1 + (d : ℝ)) else 0

/-- Normalized view count (lines 85-88): `log1p(views) / log1p(1_000_000_000)`
    clamped to `[0, 1]`. -/
noncomputable def normalizedViews (v : Video) : ℝ :=
  clamp01 (log1p (v.views : ℝ) / log1p 1000000000)

/-- `calculate_video_score` (lines 36-101): `0.4` views + `0.4` clamped
    engagement + `0.2` recency, rounded to 4 decimals. -/
noncomputable def calculate_video_score (now : ℤ) (v : Video) : ℝ :=
  pyRound4 (0.4 * normalizedViews v + 0.4 * min (engagementRate v) 1 +
    0.2 * recencyScore now v)

/-! ### `calculate_channel_score` (lines 103-176) -/

/-- Lines 126-129: mean view count of the associated videos that have a
truthy `statistics` entry, `0.0` when there are none (or no videos). -/
noncomputable def channelAvgViews (videos : List Video) : ℝ :=
  let view_counts := (videos.filter (fun v => v.stats.isSome)).map Video.views
  if view_counts.isEmpty then 0
  else (view_counts.sum : ℝ) / (view_counts.length : ℝ)

/-- Lines 131-149: videos per month, from the day span between the earliest
and latest parseable publish date; `0.0` with fewer than two such dates or a
non-positive span. -/
noncomputable def postingFrequency (videos : List Video) : ℝ :=
  let publish_dates := videos.filterMap Video.publishedAt
  let sorted_dates := sortDesc (fun a b : ℤ => b < a) publish_dates
  if 2 ≤ publish_dates.length then
    let span := Int.fdiv (sorted_dates.getLastD 0 - sorted_dates.headD 0) 86400
    if 0 < span then ((publish_dates.length : ℝ) / (span : ℝ)) * 30 else 0
  else 0

/-- `calculate_channel_score` (lines 103-176): `0.3` normalized subscribers +
    `0.4` normalized average views of associated videos + `0.3` normalized
    posting frequency, rounded to 4 decimals. -/
noncomputable def calculate_channel_score (ch : Channel) (videos : List Video) : ℝ :=
  pyRound4 (0.3 * clamp01 (log1p (ch.subs : ℝ) / log1p 200000000) +
    0.4 * clamp01 (log1p (channelAvgViews videos) / log1p 50000000) +
    0.3 * max (min (postingFrequency videos / 30) 1) 0)

theorem engagementRate_nonneg (v : Video) : 0 ≤ engagementRate v := by
  unfold engagementRate
  split_ifs
  · positivity
  · exact le_refl 0

theorem recencyScore_bounds (now : ℤ) (v : Video) :
    0 ≤ recencyScore now v ∧ recencyScore now v ≤ 1 := by
  unfold recencyScore
  rcases v.publishedAt with _ | t
  · norm_num
  · simp only
    set d := Int.fdiv (now - t) 86400 with hd
    split_ifs with h
    · have hpos : (0 : ℝ) < 1 + (d : ℝ) := by
        have : (0 : ℝ) ≤ (d : ℝ) := by exact_mod_cast h
        linarith
      constructor
      · positivity
      · rw [div_le_one hpos]
        have : (0 : ℝ) ≤ (d : ℝ) := by exact_mod_cast h
        linarith
    · norm_num

/-! ### Mini regular-expression engine

`extract_topics_from_videos` matches a fixed list of regular expressions
(lines 192-206) against lowercased titles with `re.findall`.  Each pattern in
that list is an alternation of sequences built from literals, `\d+`, `\d*`,
`\s+`, `\s*` and optional literals (`\.?`, `(?:ion)?`, `s?`), so a small
token-sequence matcher reproduces `re` exactly on them: the character classes
`\d`/`\s` are disjoint from every adjacent literal, and optional literals are
only followed by optional literals, so greedy matching without backtracking
agrees with Python's leftmost-greedy semantics.  `\d` and `\s` are modelled at
ASCII (the only characters the patterns themselves can produce). -/

def pyIsSpace (c : Char) : Bool :=
  c == ' ' || c == '\t' || c == '\n' || c == '\r' || c == '\x0b' || c == '\x0c'

inductive RTok where
  | lit : List Char → RTok
  | digits : RTok
  | digitsOpt : RTok
  | spaces : RTok
  | spacesOpt : RTok
  | optLit : List Char → RTok
deriving DecidableEq, Repr

/-- Consume a literal prefix. -/
def dropLit : List Char → List Char → Option (List Char)
  | [], rest => some rest
  | _ :: _, [] => none
  | p :: ps, c :: cs => if c = p then dropLit ps cs else none

/-- Greedily match a token sequence at the head of the input, returning the
matched text and the remaining input. -/
def matchSeq : List RTok → List Char → Option (List Char × List Char)
  | [], cs => some ([], cs)
  | .lit p :: ts, cs =>
      match dropLit p cs with
      | none => none
      | some rest => (matchSeq ts rest).map (fun q => (p ++ q.1, q.2))
  | .digits :: ts, cs =>
      let d := cs.takeWhile Char.isDigit
      if d.isEmpty then none
      else (matchSeq ts (cs.dropWhile Char.isDigit)).map (fun q => (d ++ q.1, q.2))
  | .digitsOpt :: ts, cs =>
      (matchSeq ts (cs.dropWhile Char.isDigit)).map
        (fun q => (cs.takeWhile Char.isDigit ++ q.1, q.2))
  | .spaces :: ts, cs =>
      let d := cs.takeWhile pyIsSpace
      if d.isEmpty then none
      else (matchSeq ts (cs.dropWhile pyIsSpace)).map (fun q => (d ++ q.1, q.2))
  | .spacesOpt :: ts, cs =>
      (matchSeq ts (cs.dropWhile pyIsSpace)).map
        (fun q => (cs.takeWhile pyIsSpace ++ q.1, q.2))
  | .optLit p :: ts, cs =>
      match dropLit p cs with
      | some rest => (matchSeq ts rest).map (fun q => (p ++ q.1, q.2))
      | none => matchSeq ts cs

/-- First alternative that matches (Python `|` preference order). -/
def matchAlt : List (List RTok) → List Char → Option (List Char × List Char)
  | [], _ => none
  | alt :: alts, cs =>
      match matchSeq alt cs with
      | some r => some r
      | none => matchAlt alts cs

theorem dropLit_append {p cs rest : List Char} (h : dropLit p cs = some rest) :
    p ++ rest = cs := by
  induction p generalizing cs with
  | nil =>
      have h' : (some cs : Option (List Char)) = some rest := h
      injection h' with h2
      rw [h2]
      rfl
  | cons a ps ih =>
      cases cs with
      | nil => simp [dropLit] at h
      | cons c cs' =>
          simp only [dropLit] at h
          split_ifs at h with hc
          · subst hc
            simpa using ih h

theorem map_pre_eq_some {o : Option (List Char × List Char)}
    {p m r : List Char}
    (h : o.map (fun q => (p ++ q.1, q.2)) = some (m, r)) :
    ∃ a, o = some (a, r) ∧ m = p ++ a := by
  cases o with
  | none => simp at h
  | some q =>
      obtain ⟨a, b⟩ := q
      have h' : ((p ++ a, b) : List Char × List Char) = (m, r) :=
        Option.some.inj h
      obtain ⟨h1, h2⟩ := Prod.ext_iff.mp h'
      simp only at h1 h2
      exact ⟨a, by rw [h2], h1.symm⟩

theorem matchSeq_append {ts : List RTok} {cs m r : List Char}
    (h : matchSeq ts cs = some (m, r)) : m ++ r = cs := by
  induction ts generalizing cs m r with
  | nil =>
      simp only [matchSeq, Option.some.injEq, Prod.mk.injEq] at h
      obtain ⟨h1, h2⟩ := h
      subst h1; subst h2
      simp
  | cons t ts ih =>
      cases t with
      | lit p =>
          simp only [matchSeq] at h
          cases hd : dropLit p cs with
          | none => rw [hd] at h; simp at h
          | some rest =>
              rw [hd] at h
              obtain ⟨a, hm, ha⟩ := map_pre_eq_some h
              rw [ha, List.append_assoc, ih hm, dropLit_append hd]
      | digits =>
          simp only [matchSeq] at h
          split_ifs at h with hd
          obtain ⟨a, hm, ha⟩ := map_pre_eq_some h
          rw [ha, List.append_assoc, ih hm, List.takeWhile_append_dropWhile]
      | digitsOpt =>
          simp only [matchSeq] at h
          obtain ⟨a, hm, ha⟩ := map_pre_eq_some h
          rw [ha, List.append_assoc, ih hm, List.takeWhile_append_dropWhile]
      | spaces =>
          simp only [matchSeq] at h
          split_ifs at h with hd
          obtain ⟨a, hm, ha⟩ := map_pre_eq_some h
          rw [ha, List.append_assoc, ih hm, List.takeWhile_append_dropWhile]
      | spacesOpt =>
          simp only [matchSeq] at h
          obtain ⟨a, hm, ha⟩ := map_pre_eq_some h
          rw [ha, List.append_assoc, ih hm, List.takeWhile_append_dropWhile]
      | optLit p =>
          simp only [matchSeq] at h
          cases hd : dropLit p cs with
          | none => rw [hd] at h; exact ih h
          | some rest =>
              rw [hd] at h
              obtain ⟨a, hm, ha⟩ := map_pre_eq_some h
              rw [ha, List.append_assoc, ih hm, dropLit_append hd]

theorem matchAlt_append {ps : List (List RTok)} {cs m r : List Char}
    (h : matchAlt ps cs = some (m, r)) : m ++ r = cs := by
  induction ps with
  | nil => simp [matchAlt] at h
  | cons alt alts ih =>
      simp only [matchAlt] at h
      cases hm : matchSeq alt cs with
      | none => rw [hm] at h; exact ih h
      | some q => rw [hm] at h; cases h; exact matchSeq_append hm

/-- `re.findall`: scan left to right, taking non-overlapping matches.
Defined with an explicit fuel argument so that it reduces by structural
recursion; since every successful match of the patterns above consumes at
least one character (`matchAlt_append`), fuel `l.length` always suffices, and
`findAllAux_fuel` below proves the result is fuel-independent from that
point on. -/
def findAllAux (p : List (List RTok)) : ℕ → List Char → List (List Char)
  | 0, _ => []
  | _ + 1, [] => []
  | fuel + 1, c :: cs =>
      match matchAlt p (c :: cs) with
      | some (m, r) =>
          if m.isEmpty then findAllAux p fuel cs
          else m :: findAllAux p fuel r
      | none => findAllAux p fuel cs

def findAll (p : List (List RTok)) (l : List Char) : List (List Char) :=
  findAllAux p l.length l

theorem findAllAux_fuel (p : List (List RTok)) :
    ∀ (f1 f2 : ℕ) (l : List Char), l.length ≤ f1 → l.length ≤ f2 →
      findAllAux p f1 l = findAllAux p f2 l := by
  intro f1
  induction f1 with
  | zero =>
      intro f2 l h1 _
      have : l = [] := List.eq_nil_of_length_eq_zero (Nat.le_zero.mp h1)
      subst this
      cases f2 <;> rfl
  | succ f1 ih =>
      intro f2 l h1 h2
      cases l with
      | nil => cases f2 <;> rfl
      | cons c cs =>
          cases f2 with
          | zero => simp at h2
          | succ f2' =>
              simp only [List.length_cons, Nat.succ_le_succ_iff] at h1 h2
              simp only [findAllAux]
              cases hma : matchAlt p (c :: cs) with
              | none => exact ih f2' cs h1 h2
              | some q =>
                  obtain ⟨m, r⟩ := q
                  have happ := matchAlt_append hma
                  by_cases hm : m.isEmpty
                  · simp only [if_pos hm]
                    exact ih f2' cs h1 h2
                  · simp only [if_neg hm]
                    have hlen : m.length + r.length = cs.length + 1 := by
                      have hc := congrArg List.length happ
                      simpa using hc
                    have hmpos : 0 < m.length :=
                      List.length_pos.mpr (by simpa [List.isEmpty_iff] using hm)
                    have hr : r.length ≤ cs.length := by omega
                    rw [ih f2' r (le_trans hr h1) (le_trans hr h2)]

/-- The `common_keywords_patterns` list (lines 192-206), in source order.
Each entry is the alternation structure of the corresponding regex:
`how\s+to`, `tutorial`, `guide`, `explained`, `for\s+beginners`, `review`,
`vs\.?|versus`, `comparison`, `top\s*\d+`, `best\s*\d*`, `worst\s*\d*`,
`\d+\s*tips`, `\d+\s*ways`, `react(?:ion)?s?`, `challenge`, `interview`,
`gameplay`, `walkthrough`, `highlights?`, `montage`, `podcast`, `news`,
`update`, `vlog`, `unboxing`, `diy`, `easy`, `quick`, `simple`, `ultimate`,
`complete`. -/
def common_keywords_patterns : List (List (List RTok)) := [
  [[.lit "how".data, .spaces, .lit "to".data]],
  [[.lit "tutorial".data]],
  [[.lit "guide".data]],
  [[.lit "explained".data]],
  [[.lit "for".data, .spaces, .lit "beginners".data]],
  [[.lit "review".data]],
  [[.lit "vs".data, .optLit ".".data], [.lit "versus".data]],
  [[.lit "comparison".data]],
  [[.lit "top".data, .spacesOpt, .digits]],
  [[.lit "best".data, .spacesOpt, .digitsOpt]],
  [[.lit "worst".data, .spacesOpt, .digitsOpt]],
  [[.digits, .spacesOpt, .lit "tips".data]],
  [[.digits, .spacesOpt, .lit "ways".data]],
  [[.lit "react".data, .optLit "ion".data, .optLit "s".data]],
  [[.lit "challenge".data]],
  [[.lit "interview".data]],
  [[.lit "gameplay".data]],
  [[.lit "walkthrough".data]],
  [[.lit "highlight".data, .optLit "s".data]],
  [[.lit "montage".data]],
  [[.lit "podcast".data]],
  [[.lit "news".data]],
  [[.lit "update".data]],
  [[.lit "vlog".data]],
  [[.lit "unboxing".data]],
  [[.lit "diy".data]],
  [[.lit "easy".data]],
  [[.lit "quick".data]],
  [[.lit "simple".data]],
  [[.lit "ultimate".data]],
  [[.lit "complete".data]]]

/-- `re.sub(r'\d+', 'N', s)` (line 236): replace every maximal digit run by
a single `N`.  Implemented structurally with a flag recording whether the
previous character was a digit (equivalent to skipping the rest of each
digit run). -/
def subDigitsAux (prevDigit : Bool) : List Char → List Char
  | [] => []
  | c :: cs =>
      if c.isDigit then
        if prevDigit then subDigitsAux true cs
        else 'N' :: subDigitsAux true cs
      else c :: subDigitsAux false cs

def subDigitsN (l : List Char) : List Char := subDigitsAux false l

/-- Python `str.strip()` (whitespace at ASCII). -/
def pyStrip (l : List Char) : List Char :=
  ((l.dropWhile pyIsSpace).reverse.dropWhile pyIsSpace).reverse

/-- Line 236: `re.sub(r'\d+', 'N', match_text).strip()`. -/
def normalizeTopic (m : List Char) : String :=
  String.mk (pyStrip (subDigitsN m))

/-- Per-topic accumulator (line 209): total views, total engagement score
    (sum of likes+comments of contributing videos), and the set of
    contributing video ids (kept as a duplicate-free list; only membership
    and cardinality are used). -/
structure TData where
  total_views : ℕ
  total_eng : ℕ
  video_ids : List String
deriving DecidableEq, Repr

/-- One `+=` round on the insertion-ordered `topic_performance` defaultdict
    (lines 238-240): update the entry for `name` (creating it at the end on
    first touch), adding the video's views/engagement and its id. -/
def tpUpdate (tp : List (String × TData)) (name : String) (vc eng : ℕ)
    (vid : String) : List (String × TData) :=
  match tp with
  | [] => [(name, ⟨vc, eng, [vid]⟩)]
  | (k, d) :: rest =>
      if k = name then
        (k, ⟨d.total_views + vc, d.total_eng + eng,
             if vid ∈ d.video_ids then d.video_ids else d.video_ids ++ [vid]⟩)
          :: rest
      else (k, d) :: tpUpdate rest name vc eng vid

/-- Lines 234-241: process one regex match for one video, with `found` the
    `found_topics_for_video` set. -/
def procMatch (vid : String) (vc eng : ℕ)
    (st : List (String × TData) × List String) (m : List Char) :
    List (String × TData) × List String :=
  let norm := normalizeTopic m
  if 2 < norm.length ∧ norm ∉ st.2 then
    (tpUpdate st.1 norm vc eng vid, st.2 ++ [norm])
  else st

/-- Lines 211-241: process one video of the batch. -/
def procVideo (tp : List (String × TData)) (v : Video) :
    List (String × TData) :=
  let title := (v.title.getD "").data.map Char.toLower
  let vc := v.views
  let eng := if 0 < vc then v.likes + v.comments else 0
  (common_keywords_patterns.foldl
    (fun st pat => (findAll pat title).foldl (procMatch v.id vc eng) st)
    (tp, [])).1

/-- The fully accumulated `topic_performance` mapping, in insertion order. -/
def topicPerformance (videos : List Video) : List (String × TData) :=
  videos.foldl procVideo []

/-- One output topic object (lines 268-275). -/
structure TopicEntry where
  name : String
  aggregated_views : ℕ
  avg_views_per_video : ℤ
  avg_engagement_score_per_video : ℝ
  video_count : ℕ
  composite_score : ℝ

/-- Lines 258-275: build the ranked-topic object for one accumulated topic. -/
noncomputable def mkTopicEntry (p : String × TData) : TopicEntry :=
  let k := p.2.video_ids.length
  let avg_v : ℝ := (p.2.total_views : ℝ) / (k : ℝ)
  let avg_e : ℝ := (p.2.total_eng : ℝ) / (k : ℝ)
  { name := p.1
    aggregated_views := p.2.total_views
    avg_views_per_video := roundHalfEven avg_v
    avg_engagement_score_per_video := pyRound2 avg_e
    video_count := k
    composite_score := (log1p avg_v + log1p avg_e) * log1p (k : ℝ) }

/-- The sort key order of line 278: ascending on the Python tuple
    `(composite_score, video_count)`; the sort is descending in it. -/
def topicLt (a b : TopicEntry) : Prop :=
  a.composite_score < b.composite_score ∨
    (a.composite_score = b.composite_score ∧ a.video_count < b.video_count)

noncomputable instance topicLtDec : DecidableRel topicLt :=
  fun _ _ => Classical.propDecidable _

/-- `extract_topics_from_videos` (lines 178-280). -/
noncomputable def extract_topics_from_videos (videos : List Video)
    (top_n : ℕ) : List TopicEntry :=
  if videos.isEmpty then []
  else
    (sortDesc topicLt
      (((topicPerformance videos).filter
          (fun p => ¬ p.2.video_ids.isEmpty)).map mkTopicEntry)).take top_n

/-! ### Invariants of the topic extractor -/

/-- Propositional `List.all`. -/
def allP {α : Type} (p : α → Prop) : List α → Prop
  | [] => True
  | a :: l => p a ∧ allP p l

theorem allP_iff_forall {α : Type} (p : α → Prop) (l : List α) :
    allP p l ↔ ∀ a ∈ l, p a := by
  induction l with
  | nil => simp [allP]
  | cons a l ih => simp [allP, ih]

theorem foldl_inv {α β : Type} (P : β → Prop) (f : β → α → β)
    (hstep : ∀ b a, P b → P (f b a)) :
    ∀ (l : List α) (b : β), P b → P (l.foldl f b) := by
  intro l
  induction l with
  | nil => intro b hb; exact hb
  | cons a l ih => intro b hb; exact ih _ (hstep b a hb)

theorem tpUpdate_names {P : String → Prop} :
    ∀ (tp : List (String × TData)) (name : String) (vc eng : ℕ) (vid : String),
      (∀ q ∈ tp, P q.1) → P name → ∀ q ∈ tpUpdate tp name vc eng vid, P q.1 := by
  intro tp
  induction tp with
  | nil =>
      intro name vc eng vid _ hn q hq
      simp only [tpUpdate, List.mem_singleton] at hq
      rw [hq]
      exact hn
  | cons hd rest ih =>
      intro name vc eng vid hall hn q hq
      obtain ⟨k, d⟩ := hd
      simp only [tpUpdate] at hq
      by_cases hk : k = name
      · rw [if_pos hk] at hq
        rcases List.mem_cons.mp hq with heq | hmem
        · rw [heq]
          exact hall (k, d) (List.mem_cons_self _ _)
        · exact hall q (List.mem_cons_of_mem _ hmem)
      · rw [if_neg hk] at hq
        rcases List.mem_cons.mp hq with heq | hmem
        · rw [heq]
          exact hall (k, d) (List.mem_cons_self _ _)
        · exact ih name vc eng vid
            (fun q' hq' => hall q' (List.mem_cons_of_mem _ hq')) hn q hmem

theorem procMatch_names (vid : String) (vc eng : ℕ)
    (st : List (String × TData) × List String) (m : List Char)
    (h : ∀ q ∈ st.1, 2 < q.1.length) :
    ∀ q ∈ (procMatch vid vc eng st m).1, 2 < q.1.length := by
  simp only [procMatch]
  split_ifs with hc
  · exact tpUpdate_names (P := fun s => 2 < s.length) st.1 (normalizeTopic m)
      vc eng vid h hc.1
  · exact h

theorem procVideo_names (tp : List (String × TData)) (v : Video)
    (h : ∀ q ∈ tp, 2 < q.1.length) :
    ∀ q ∈ procVideo tp v, 2 < q.1.length := by
  simp only [procVideo]
  refine foldl_inv
    (fun (st : List (String × TData) × List String) => ∀ q ∈ st.1, 2 < q.1.length)
    _ ?_ _ _ h
  intro st pat hst
  refine foldl_inv
    (fun (st : List (String × TData) × List String) => ∀ q ∈ st.1, 2 < q.1.length)
    _ ?_ _ _ hst
  intro b a hb
  exact procMatch_names _ _ _ b a hb

theorem topicPerformance_names (videos : List Video) :
    ∀ q ∈ topicPerformance videos, 2 < q.1.length := by
  unfold topicPerformance
  exact foldl_inv (fun tp => ∀ q ∈ tp, 2 < q.1.length) procVideo
    (fun tp v htp => procVideo_names tp v htp) videos [] (by simp)

theorem extract_topics_mem {videos : List Video} {top_n : ℕ} {t : TopicEntry}
    (ht : t ∈ extract_topics_from_videos videos top_n) :
    ∃ p, p ∈ (topicPerformance videos).filter
        (fun p => ¬ p.2.video_ids.isEmpty) ∧ t = mkTopicEntry p := by
  unfold extract_topics_from_videos at ht
  split_ifs at ht with hv
  · simp at ht
  · have h1 := List.take_subset top_n _ ht
    have h2 := (sortDesc_perm topicLt _).mem_iff.mp h1
    obtain ⟨p, hp, heq⟩ := List.mem_map.mp h2
    exact ⟨p, hp, heq.symm⟩

theorem topicLt_asymm : ∀ a b, topicLt a b → ¬ topicLt b a := by
  intro a b hab hba
  unfold topicLt at hab hba
  rcases hab with h1 | h1 <;> rcases hba with g1 | g1
  · linarith
  · rw [g1.1] at h1; exact lt_irrefl _ h1
  · rw [h1.1] at g1; exact lt_irrefl _ g1
  · omega

theorem topicLt_negtrans :
    ∀ a b c, ¬ topicLt a b → ¬ topicLt b c → ¬ topicLt a c := by
  intro a b c hab hbc hac
  unfold topicLt at hab hbc hac
  push_neg at hab hbc
  obtain ⟨hab1, hab2⟩ := hab
  obtain ⟨hbc1, hbc2⟩ := hbc
  rcases hac with h | h
  · linarith
  · obtain ⟨he, hv⟩ := h
    have hae : a.composite_score = b.composite_score := by linarith
    have hbe : b.composite_score = c.composite_score := by linarith
    have h1 := hab2 hae
    have h2 := hbc2 hbe
    omega

/-- C10: every topic entry returned by `extract_topics_from_videos` has a
normalized name longer than 2 characters; a match whose digit-normalized,
stripped text is 2 characters or shorter (e.g. the bare `vs` match) never
produces a topic entry. -/
theorem C10_topic_names_longer_than_two (videos : List Video) (top_n : ℕ) :
    allP (fun t => 2 < t.name.length) (extract_topics_from_videos videos top_n) := by
  rw [allP_iff_forall]
  intro t ht
  obtain ⟨p, hp, rfl⟩ := extract_topics_mem ht
  exact topicPerformance_names videos p (List.mem_of_mem_filter hp)

/-- C6: every topic entry's composite score is
`(log1p(avg_views_per_video) + log1p(avg_engagement_magnitude_per_video)) *
log1p(video_count)` computed from the accumulated per-topic data, and the
returned sequence is sorted descending by composite score with ties broken
by `video_count` descending, truncated to `top_n`. -/
theorem C6_topic_composite_score_and_order (videos : List Video) (top_n : ℕ) :
    (extract_topics_from_videos videos top_n).length ≤ top_n ∧
    (extract_topics_from_videos videos top_n).Pairwise
      (fun a b => b.composite_score ≤ a.composite_score ∧
        (a.composite_score = b.composite_score → b.video_count ≤ a.video_count)) ∧
    allP (fun t => ∃ d : TData,
        (t.name, d) ∈ topicPerformance videos ∧
        0 < d.video_ids.length ∧
        t.video_count = d.video_ids.length ∧
        t.aggregated_views = d.total_views ∧
        t.composite_score =
          (log1p ((d.total_views : ℝ) / (d.video_ids.length : ℝ)) +
            log1p ((d.total_eng : ℝ) / (d.video_ids.length : ℝ))) *
          log1p ((d.video_ids.length : ℝ)))
      (extract_topics_from_videos videos top_n) := by
  refine ⟨?_, ?_, ?_⟩
  · unfold extract_topics_from_videos
    split_ifs
    · simp
    · exact List.length_take_le _ _
  · unfold extract_topics_from_videos
    split_ifs
    · simp
    · have hs := sortDesc_pairwise topicLt topicLt_asymm topicLt_negtrans
        (((topicPerformance videos).filter
          (fun p => ¬ p.2.video_ids.isEmpty)).map mkTopicEntry)
      have hsub := hs.sublist (List.take_sublist top_n _)
      refine hsub.imp ?_
      intro a b hnab
      unfold topicLt at hnab
      push_neg at hnab
      exact hnab
  · rw [allP_iff_forall]
    intro t ht
    obtain ⟨p, hp, rfl⟩ := extract_topics_mem ht
    refine ⟨p.2, List.mem_of_mem_filter hp, ?_, rfl, rfl, rfl⟩
    have hpred := (List.mem_filter.mp hp).2
    simp only [decide_not, Bool.not_eq_true', decide_eq_false_iff_not] at hpred
    exact List.length_pos.mpr (by simpa [List.isEmpty_iff] using hpred)

/-- The three-video scenario of the spec: "Top 10 Gadgets" (1000 views),
"Top 5 Gadgets" (2000 views), "How to Fix Gadgets" (500 views), with
distinct ids. -/
def gadgetVideos : List Video :=
  [{ id := "v1", title := some "Top 10 Gadgets", channelId := none,
     channelTitle := none, publishedAt := none, stats := some ⟨1000, 0, 0⟩ },
   { id := "v2", title := some "Top 5 Gadgets", channelId := none,
     channelTitle := none, publishedAt := none, stats := some ⟨2000, 0, 0⟩ },
   { id := "v3", title := some "How to Fix Gadgets", channelId := none,
     channelTitle := none, publishedAt := none, stats := some ⟨500, 0, 0⟩ }]

/-- C5: on the three gadget videos, the extractor merges the two "top N"
titles into one topic entry (digit runs replaced by the placeholder `N`)
with `video_count = 2`, and produces a separate "how to" topic with
`video_count = 1` — and nothing else. -/
theorem C5_gadget_topics_merge :
    ((extract_topics_from_videos gadgetVideos 20).map
      (fun t => (t.name, t.video_count))).Perm
      [("top N", 2), ("how to", 1)] := by
  have htp : topicPerformance gadgetVideos =
      [("top N", ⟨3000, 0, ["v1", "v2"]⟩), ("how to", ⟨500, 0, ["v3"]⟩)] := by
    decide
  unfold extract_topics_from_videos
  rw [if_neg (by decide : ¬ (gadgetVideos.isEmpty = true))]
  rw [htp]
  have hfil : ([("top N", (⟨3000, 0, ["v1", "v2"]⟩ : TData)),
        ("how to", ⟨500, 0, ["v3"]⟩)].filter
        (fun p => ¬ p.2.video_ids.isEmpty)) =
      [("top N", ⟨3000, 0, ["v1", "v2"]⟩), ("how to", ⟨500, 0, ["v3"]⟩)] := by
    decide
  rw [hfil]
  have hlen : (sortDesc topicLt
      ([("top N", (⟨3000, 0, ["v1", "v2"]⟩ : TData)),
        ("how to", ⟨500, 0, ["v3"]⟩)].map mkTopicEntry)).length = 2 := by
    rw [sortDesc_length]
    simp
  rw [List.take_of_length_le (by rw [hlen]; norm_num)]
  have hperm := (sortDesc_perm topicLt
    ([("top N", (⟨3000, 0, ["v1", "v2"]⟩ : TData)),
      ("how to", ⟨500, 0, ["v3"]⟩)].map mkTopicEntry)).map
    (fun t => (t.name, t.video_count))
  refine hperm.trans ?_
  have : ([("top N", (⟨3000, 0, ["v1", "v2"]⟩ : TData)),
      ("how to", ⟨500, 0, ["v3"]⟩)].map mkTopicEntry).map
      (fun t => (t.name, t.video_count)) = [("top N", 2), ("how to", 1)] := rfl
  rw [this]

/-! ### C1 and C7: score range and zero-view behaviour -/

/-- C1: for every valid video record (non-negative integer statistics) and
every channel record with any associated video list, the scores are values
in `[0, 1]` that are integer multiples of `1/10000` (rounded to 4 decimal
digits). -/
theorem C1_scores_unit_interval_rounded :
    (∀ (now : ℤ) (v : Video),
      0 ≤ calculate_video_score now v ∧ calculate_video_score now v ≤ 1 ∧
      ∃ n : ℤ, calculate_video_score now v = (n : ℝ) / 10000) ∧
    (∀ (ch : Channel) (videos : List Video),
      0 ≤ calculate_channel_score ch videos ∧
      calculate_channel_score ch videos ≤ 1 ∧
      ∃ n : ℤ, calculate_channel_score ch videos = (n : ℝ) / 10000) := by
  constructor
  · intro now v
    obtain ⟨ha0, ha1⟩ := clamp01_bounds (log1p (v.views : ℝ) / log1p 1000000000)
    have hb0 : 0 ≤ min (engagementRate v) 1 :=
      le_min (engagementRate_nonneg v) (by norm_num)
    have hb1 : min (engagementRate v) 1 ≤ 1 := min_le_right _ _
    obtain ⟨hc0, hc1⟩ := recencyScore_bounds now v
    have hx0 : 0 ≤ 0.4 * normalizedViews v + 0.4 * min (engagementRate v) 1 +
        0.2 * recencyScore now v := by
      unfold normalizedViews
      linarith
    have hx1 : 0.4 * normalizedViews v + 0.4 * min (engagementRate v) 1 +
        0.2 * recencyScore now v ≤ 1 := by
      unfold normalizedViews
      linarith
    obtain ⟨h0, h1⟩ := pyRound4_bounds hx0 hx1
    exact ⟨h0, h1, _, rfl⟩
  · intro ch videos
    obtain ⟨ha0, ha1⟩ := clamp01_bounds (log1p (ch.subs : ℝ) / log1p 200000000)
    obtain ⟨hb0, hb1⟩ := clamp01_bounds (log1p (channelAvgViews videos) / log1p 50000000)
    have hc0 : 0 ≤ max (min (postingFrequency videos / 30) 1) 0 := le_max_right _ _
    have hc1 : max (min (postingFrequency videos / 30) 1) 0 ≤ 1 :=
      max_le (min_le_right _ _) (by norm_num)
    have hx0 : 0 ≤ 0.3 * clamp01 (log1p (ch.subs : ℝ) / log1p 200000000) +
        0.4 * clamp01 (log1p (channelAvgViews videos) / log1p 50000000) +
        0.3 * max (min (postingFrequency videos / 30) 1) 0 := by linarith
    have hx1 : 0.3 * clamp01 (log1p (ch.subs : ℝ) / log1p 200000000) +
        0.4 * clamp01 (log1p (channelAvgViews videos) / log1p 50000000) +
        0.3 * max (min (postingFrequency videos / 30) 1) 0 ≤ 1 := by linarith
    obtain ⟨h0, h1⟩ := pyRound4_bounds hx0 hx1
    exact ⟨h0, h1, _, rfl⟩

/-- A concrete zero-view video with a publish date (for C7). -/
def c7vid : Video := ⟨"v0", none, none, none, some 0, some ⟨0, 0, 0⟩⟩

/-- A concrete zero-view video with likes and comments (C7 witness). -/
def c7vidB : Video := ⟨"v0", none, none, none, some 0, some ⟨0, 3, 2⟩⟩

/-- C7: a video with `viewCount = 0` raises no exception and contributes
exactly 0 through the view term and the engagement term, so its score is
the rounded recency term alone — which can still be non-zero. -/
theorem C7_zero_views_score_is_recency_only :
    (∀ (now : ℤ) (v : Video), v.views = 0 →
      normalizedViews v = 0 ∧ min (engagementRate v) 1 = 0 ∧
      calculate_video_score now v = pyRound4 (0.2 * recencyScore now v)) ∧
    (∃ (now : ℤ) (v : Video), v.views = 0 ∧ calculate_video_score now v ≠ 0) := by
  have hmain : ∀ (now : ℤ) (v : Video), v.views = 0 →
      normalizedViews v = 0 ∧ min (engagementRate v) 1 = 0 ∧
      calculate_video_score now v = pyRound4 (0.2 * recencyScore now v) := by
    intro now v hv
    have hnv : normalizedViews v = 0 := by
      unfold normalizedViews
      rw [hv]
      push_cast
      rw [log1p_zero, zero_div, clamp01_zero]
    have her : engagementRate v = 0 := by
      unfold engagementRate
      rw [hv]
      simp
    have hmin : min (engagementRate v) 1 = 0 := by
      rw [her]
      exact min_eq_left (by norm_num)
    refine ⟨hnv, hmin, ?_⟩
    unfold calculate_video_score
    rw [hnv, hmin]
    ring_nf
  refine ⟨hmain, 0, c7vid, rfl, ?_⟩
  have hr : recencyScore 0 c7vid = 1 := by
    unfold recencyScore c7vid
    norm_num
  have h2 := (hmain 0 c7vid rfl).2.2
  rw [h2, hr]
  rw [pyRound4_of_mul_eq (n := 2000) (by norm_num)]
  norm_num

/-- Witness for C7 at a concrete zero-view video. -/
theorem C7_witness :
    normalizedViews c7vidB = 0 ∧ min (engagementRate c7vidB) 1 = 0 ∧
    calculate_video_score 0 c7vidB = pyRound4 (0.2 * recencyScore 0 c7vidB) :=
  C7_zero_views_score_is_recency_only.1 0 c7vidB rfl

/-! ### `compare_niches` (lines 455-544) and `analyze_video_trends`
(lines 546-599) -/

/-- Line 479 / 567: `total_views = sum(int(v['statistics']['viewCount']))`. -/
def nicheTotalViews (videos : List Video) : ℕ := (videos.map Video.views).sum

/-- Lines 483-488 / 570-575: sum of `likes + comments` over the videos with
positive view count (the loop adds engagement only when `views > 0`). -/
def nicheEngagementSum (videos : List Video) : ℕ :=
  videos.foldl
    (fun acc v => if 0 < v.views then acc + v.likes + v.comments else acc) 0

/-- Sort key for `sorted(videos, key=calculate_video_score, reverse=True)`. -/
noncomputable def videoScoreLt (now : ℤ) (v w : Video) : Prop :=
  calculate_video_score now v < calculate_video_score now w

noncomputable instance videoScoreLtDec (now : ℤ) : DecidableRel (videoScoreLt now) :=
  fun _ _ => Classical.propDecidable _

/-- Entry of the `top_videos` list built at lines 532-539. -/
structure TopVideoEntry where
  id : String
  title : Option String
  views : ℕ
  score : ℝ

noncomputable def mkTopVideoEntry (now : ℤ) (v : Video) : TopVideoEntry :=
  { id := v.id, title := v.title, views := v.views,
    score := calculate_video_score now v }

/-- Per-channel accumulator of lines 497-503. -/
structure CData where
  video_count : ℕ
  total_views : ℕ
  video_objects : List Video
deriving DecidableEq, Repr

def cpUpdate (cp : List (String × CData)) (cid : String) (v : Video) :
    List (String × CData) :=
  match cp with
  | [] => [(cid, ⟨1, v.views, [v]⟩)]
  | (k, d) :: rest =>
      if k = cid then
        (k, ⟨d.video_count + 1, d.total_views + v.views,
             d.video_objects ++ [v]⟩) :: rest
      else (k, d) :: cpUpdate rest cid v

/-- Lines 497-503: group the niche's videos by their (truthy) channel id,
in insertion order. -/
def channelPerformance (videos : List Video) : List (String × CData) :=
  videos.foldl
    (fun cp v =>
      match v.channelId with
      | some cid => if cid ≠ "" then cpUpdate cp cid v else cp
      | none => cp) []

/-- Entry of `top_channels_in_niche` (lines 505-523). -/
structure NicheChannelEntry where
  id : String
  title : String
  niche_video_count : ℕ
  niche_total_views : ℕ
deriving DecidableEq, Repr

def mkNicheChannelEntry (p : String × CData) : NicheChannelEntry :=
  { id := p.1,
    title := match p.2.video_objects with
      | [] => "Unknown Channel"
      | v :: _ => v.channelTitle.getD "Unknown Channel",
    niche_video_count := p.2.video_count,
    niche_total_views := p.2.total_views }

/-- One niche's analysis payload.  The two branches of the source build
dictionaries with different key sets: the empty-niche branch (lines 468-477)
has an `error` key and *no* `total_videos_in_selection` key, the main branch
(lines 528-542) the reverse; both are modelled by `Option` fields. -/
structure NicheResult where
  error : Option String
  total_videos_in_selection : Option ℕ
  average_views : ℤ
  average_engagement_rate : ℝ
  top_videos : List TopVideoEntry
  top_channels_in_niche : List NicheChannelEntry
  trending_topics : List TopicEntry

/-- The body of the `for niche_name, videos in niches_data.items()` loop of
`compare_niches` (lines 467-542). -/
noncomputable def analyzeNicheBody (now : ℤ) (videos : List Video) : NicheResult :=
  if videos.isEmpty then
    { error := some "No video data provided for this niche.",
      total_videos_in_selection := none,
      average_views := 0,
      average_engagement_rate := 0,
      top_videos := [],
      top_channels_in_niche := [],
      trending_topics := [] }
  else
    { error := none,
      total_videos_in_selection := some videos.length,
      average_views :=
        roundHalfEven ((nicheTotalViews videos : ℝ) / (videos.length : ℝ)),
      average_engagement_rate :=
        pyRound4 (if 0 < nicheTotalViews videos then
          (nicheEngagementSum videos : ℝ) / (nicheTotalViews videos : ℝ) else 0),
      top_videos :=
        ((sortDesc (videoScoreLt now) videos).take 5).map (mkTopVideoEntry now),
      top_channels_in_niche :=
        (sortDesc (fun a b : NicheChannelEntry =>
            a.niche_total_views < b.niche_total_views)
          ((channelPerformance videos).map mkNicheChannelEntry)).take 5,
      trending_topics := extract_topics_from_videos videos 10 }

/-- `compare_niches` (lines 455-544): run the per-niche analysis
independently for each niche, keyed like the input mapping. -/
noncomputable def compare_niches (now : ℤ)
    (niches_data : List (String × List Video)) : List (String × NicheResult) :=
  niches_data.map (fun p => (p.1, analyzeNicheBody now p.2))

/-- Entry of `analyze_video_trends`'s `top_videos` (lines 586-597). -/
structure TrendTopVideo where
  id : String
  title : Option String
  channel_title : Option String
  views : ℕ
  likes : ℕ
  comments : ℕ
  published_at : Option ℤ
  score : ℝ

/-- `analyze_video_trends` payload; the empty-input branch (lines 558-565)
has an `error` key and no `total_videos_analyzed` key. -/
structure TrendPayload where
  error : Option String
  total_videos_analyzed : Option ℕ
  average_views : ℤ
  average_engagement_rate : ℝ
  top_videos : List TrendTopVideo
  trending_topics : List TopicEntry

/-- `analyze_video_trends` (lines 546-599). -/
noncomputable def analyze_video_trends (now : ℤ) (videos : List Video)
    (top_n_videos top_n_topics : ℕ) : TrendPayload :=
  if videos.isEmpty then
    { error := some "No videos provided for analysis.",
      total_videos_analyzed := none,
      average_views := 0,
      average_engagement_rate := 0,
      top_videos := [],
      trending_topics := [] }
  else
    { error := none,
      total_videos_analyzed := some videos.length,
      average_views :=
        roundHalfEven ((nicheTotalViews videos : ℝ) / (videos.length : ℝ)),
      average_engagement_rate :=
        pyRound4 (if 0 < nicheTotalViews videos then
          (nicheEngagementSum videos : ℝ) / (nicheTotalViews videos : ℝ) else 0),
      top_videos :=
        ((sortDesc (videoScoreLt now) videos).take top_n_videos).map
          (fun v => { id := v.id, title := v.title, channel_title := v.channelTitle,
                      views := v.views, likes := v.likes, comments := v.comments,
                      published_at := v.publishedAt,
                      score := calculate_video_score now v }),
      trending_topics := extract_topics_from_videos videos top_n_topics }

theorem pyRound4_zero : pyRound4 0 = 0 := by
  rw [pyRound4_of_mul_eq (n := 0) (by norm_num)]
  norm_num

theorem nicheEngagementSum_eq (videos : List Video) :
    nicheEngagementSum videos =
      ((videos.filter (fun v => 0 < v.views)).map
        (fun v => v.likes + v.comments)).sum := by
  unfold nicheEngagementSum
  suffices h : ∀ (l : List Video) (acc : ℕ),
      l.foldl (fun acc v => if 0 < v.views then acc + v.likes + v.comments
        else acc) acc =
      acc + ((l.filter (fun v => 0 < v.views)).map
        (fun v => v.likes + v.comments)).sum by
    simpa using h videos 0
  intro l
  induction l with
  | nil => intro acc; simp
  | cons v l ih =>
      intro acc
      rw [List.foldl_cons, ih]
      by_cases hv : 0 < v.views
      · simp [List.filter_cons, hv]
        omega
      · simp [List.filter_cons, hv]

/-- The two-video niche of the spec's constructed case, adapted to expose the
difference: one zero-view video with likes, one high-view video. -/
def c2videos : List Video :=
  [⟨"a", none, none, none, none, some ⟨0, 5, 0⟩⟩,
   ⟨"b", none, none, none, none, some ⟨10, 1, 0⟩⟩]

/-- C2 counterexample: the reported `average_engagement_rate` is `0.1`
(only videos with positive views contribute likes+comments to the
numerator), not `sum(likes+comments over ALL videos) / sum(views) = 0.6`
as the claim states. -/
theorem C2_counterexample :
    (analyze_video_trends 0 c2videos 10 10).average_engagement_rate = 1/10 ∧
    (((c2videos.map (fun v => v.likes + v.comments)).sum : ℕ) : ℝ) /
      (((c2videos.map Video.views).sum : ℕ) : ℝ) = 6/10 ∧
    (1/10 : ℝ) ≠ 6/10 := by
  refine ⟨?_, ?_, by norm_num⟩
  · have h1 : nicheTotalViews c2videos = 10 := by decide
    have h2 : nicheEngagementSum c2videos = 1 := by decide
    unfold analyze_video_trends
    rw [if_neg (by decide : ¬ (c2videos.isEmpty = true))]
    show pyRound4 (if 0 < nicheTotalViews c2videos then
      (nicheEngagementSum c2videos : ℝ) / (nicheTotalViews c2videos : ℝ)
      else 0) = 1/10
    rw [h1, h2, if_pos (by norm_num)]
    rw [pyRound4_of_mul_eq (n := 1000) (by norm_num)]
    norm_num
  · have ha : (c2videos.map (fun v => v.likes + v.comments)).sum = 6 := by decide
    have hb : (c2videos.map Video.views).sum = 10 := by decide
    rw [ha, hb]
    norm_num

/-- C2 amended: in both `analyze_video_trends` and (via its per-niche body)
`compare_niches`, the reported `average_engagement_rate` equals the
4-decimal rounding of (sum of likes+comments over the videos with positive
view count) divided by (sum of views over all videos), and `0` when the
total view count is `0`. -/
theorem C2_amended_engagement_rate :
    (∀ (now : ℤ) (videos : List Video) (a b : ℕ),
      (analyze_video_trends now videos a b).average_engagement_rate =
        if 0 < nicheTotalViews videos then
          pyRound4 (((((videos.filter (fun v => 0 < v.views)).map
              (fun v => v.likes + v.comments)).sum : ℕ) : ℝ) /
            (((videos.map Video.views).sum : ℕ) : ℝ))
        else 0) ∧
    (∀ (now : ℤ) (niches : List (String × List Video)),
      compare_niches now niches =
        niches.map (fun p => (p.1, analyzeNicheBody now p.2))) ∧
    (∀ (now : ℤ) (videos : List Video),
      (analyzeNicheBody now videos).average_engagement_rate =
        if 0 < nicheTotalViews videos then
          pyRound4 (((((videos.filter (fun v => 0 < v.views)).map
              (fun v => v.likes + v.comments)).sum : ℕ) : ℝ) /
            (((videos.map Video.views).sum : ℕ) : ℝ))
        else 0) := by
  refine ⟨?_, fun _ _ => rfl, ?_⟩
  · intro now videos a b
    unfold analyze_video_trends
    by_cases hv : videos.isEmpty
    · rw [if_pos hv]
      have hnil : videos = [] := List.isEmpty_iff.mp hv
      subst hnil
      show (0 : ℝ) = _
      rw [if_neg (by simp [nicheTotalViews])]
    · rw [if_neg hv]
      show pyRound4 (if 0 < nicheTotalViews videos then
        (nicheEngagementSum videos : ℝ) / (nicheTotalViews videos : ℝ)
        else 0) = _
      by_cases ht : 0 < nicheTotalViews videos
      · rw [if_pos ht, if_pos ht, nicheEngagementSum_eq]
        rfl
      · rw [if_neg ht, if_neg ht, pyRound4_zero]
  · intro now videos
    unfold analyzeNicheBody
    by_cases hv : videos.isEmpty
    · rw [if_pos hv]
      have hnil : videos = [] := List.isEmpty_iff.mp hv
      subst hnil
      show (0 : ℝ) = _
      rw [if_neg (by simp [nicheTotalViews])]
    · rw [if_neg hv]
      show pyRound4 (if 0 < nicheTotalViews videos then
        (nicheEngagementSum videos : ℝ) / (nicheTotalViews videos : ℝ)
        else 0) = _
      by_cases ht : 0 < nicheTotalViews videos
      · rw [if_pos ht, if_pos ht, nicheEngagementSum_eq]
        rfl
      · rw [if_neg ht, if_neg ht, pyRound4_zero]

/-- C3 counterexample: for `compare_niches({"x": []})` the result for `"x"`
has *no* `total_videos_in_selection` entry (the empty-niche branch builds a
dictionary without that key), so it does not contain
`total_videos_in_selection = 0`. -/
theorem C3_counterexample :
    ((compare_niches 0 [("x", [])]).map
      (fun p => p.2.total_videos_in_selection)) = [none] ∧
    (none : Option ℕ) ≠ some 0 :=
  ⟨rfl, by simp⟩

/-- C3 amended: `compare_niches` of an empty mapping is the empty mapping,
and of one niche with an empty video list returns, without raising, a result
for that niche carrying the error message, zero averages and empty
`top_videos` / `top_channels_in_niche` / `trending_topics` — but no
`total_videos_in_selection` field. -/
theorem C3_amended_empty_niches :
    (∀ now : ℤ, compare_niches now [] = []) ∧
    (∀ now : ℤ, compare_niches now [("x", [])] =
      [("x", { error := some "No video data provided for this niche.",
               total_videos_in_selection := none,
               average_views := 0,
               average_engagement_rate := 0,
               top_videos := [],
               top_channels_in_niche := [],
               trending_topics := [] })]) :=
  ⟨fun _ => rfl, fun _ => rfl⟩

/-! ### `generate_video_ideas` (lines 282-376) and `analyze_channel_trends`
(lines 601-653) -/

def isPrefixChars : List Char → List Char → Bool
  | [], _ => true
  | _ :: _, [] => false
  | a :: as, b :: bs => a == b && isPrefixChars as bs

/-- Python `needle in hay` on strings (substring containment). -/
def isSubstringChars (needle : List Char) : List Char → Bool
  | [] => needle.isEmpty
  | c :: t => isPrefixChars needle (c :: t) || isSubstringChars needle t

/-- Python `str.capitalize()`: first character upper-cased, the rest
lower-cased (ASCII). -/
def pyCapitalize (s : String) : String :=
  match s.data with
  | [] => ""
  | c :: cs => String.mk (c.toUpper :: cs.map Char.toLower)

structure VideoIdea where
  title : String
  description : String
  topic : String
  estimated_view_potential : String
  estimated_competition : String
  format_suggestion : String
  thumbnail_tip : String

/-- `generate_video_ideas` (lines 282-376).  The source loop appends exactly
one idea per considered topic and breaks once `top_n_ideas` ideas exist,
then slices to `top_n_ideas`; this equals mapping over the first
`max(top_n_ideas, 5)` topics and truncating. -/
noncomputable def generate_video_ideas (now : ℤ) (topics : List TopicEntry)
    (videos : List Video) (top_n_ideas : ℕ) : List VideoIdea :=
  if topics.isEmpty ∨ videos.isEmpty then []
  else
    let sorted_videos := sortDesc (videoScoreLt now) videos
    ((topics.take (max top_n_ideas 5)).map (fun topic_data =>
      let topic_name := topic_data.name
      let relevant := (sorted_videos.take 10).find?
        (fun v => isSubstringChars topic_name.toLower.data
          ((v.title.getD "").toLower.data))
      let exemplar := match relevant with
        | some ex => some ex
        | none => sorted_videos.head?
      match exemplar with
      | some ex =>
          let example_title := ex.title.getD "Example Title"
          let avg := topic_data.avg_views_per_video
          let vp := if 100000 < avg then "High"
            else if avg < 10000 then "Low to Medium" else "Medium"
          let comp := if 10 < topic_data.video_count ∧ 50000 < avg then "High"
            else if topic_data.video_count < 5 then "Low" else "Medium"
          { title := "\"" ++ pyCapitalize topic_name ++ "\": Inspired by \"" ++
              String.mk (example_title.data.take 50) ++ "...\"",
            description := String.intercalate " "
              ["Create a video about \x27" ++ topic_name ++
                 "\x27. This topic is currently performing well.",
               "Consider a style similar to successful videos like \x27" ++
                 String.mk (example_title.data.take 50) ++ "...\x27.",
               "Estimated Potential: " ++ vp ++ " views, " ++ comp ++
                 " competition.",
               "Focus on a catchy thumbnail and clear, engaging content."],
            topic := topic_name,
            estimated_view_potential := vp,
            estimated_competition := comp,
            format_suggestion := "Adapt content from \x27" ++ topic_name ++
              "\x27 format.",
            thumbnail_tip := "Use bright colors, clear text, and expressive faces/objects if relevant." }
      | none =>
          { title := "New Video Idea: " ++ pyCapitalize topic_name,
            description := "Explore the topic of \x27" ++ topic_name ++
              "\x27. This is an emerging area of interest.",
            topic := topic_name,
            estimated_view_potential := "Medium",
            estimated_competition := "Medium",
            format_suggestion := "Research common formats for this type of content.",
            thumbnail_tip := "Ensure your thumbnail is high-resolution and stands out." })).take
      top_n_ideas

def Channel.vidCount (c : Channel) : ℕ := (c.stats.map ChStats.videoCount).getD 0
def Channel.viewsTotal (c : Channel) : ℕ := (c.stats.map ChStats.viewCount).getD 0

/-- Entry of `analyze_channel_trends`'s `top_channels` (lines 642-652),
built from a copy `{**ch_detail, "score": score}` of the channel record. -/
structure TopChannelEntry where
  id : Option String
  title : Option String
  subscribers : ℕ
  video_count : ℕ
  views : ℕ
  published_at : Option ℤ
  score : ℝ

structure ChannelTrendPayload where
  error : Option String
  total_channels_analyzed : Option ℕ
  average_subscribers : ℤ
  top_channels : List TopChannelEntry

/-- `analyze_channel_trends` (lines 601-653). -/
noncomputable def analyze_channel_trends (channels_details : List Channel)
    (videos_by_channel : Option (List (String × List Video)))
    (top_n_channels : ℕ) : ChannelTrendPayload :=
  if channels_details.isEmpty then
    { error := some "No channel data provided for analysis.",
      total_channels_analyzed := none,
      average_subscribers := 0,
      top_channels := [] }
  else
    let scored_channels := channels_details.map (fun ch =>
      (ch, calculate_channel_score ch
        (match videos_by_channel, ch.id with
         | some vbc, some cid => (List.lookup cid vbc).getD []
         | some _, none => []
         | none, _ => [])))
    let sorted_channels :=
      sortDesc (fun a b : Channel × ℝ => a.2 < b.2) scored_channels
    let total_subscribers :=
      ((channels_details.filter (fun c => c.stats.isSome)).map Channel.subs).sum
    { error := none,
      total_channels_analyzed := some channels_details.length,
      average_subscribers :=
        roundHalfEven ((total_subscribers : ℝ) / (channels_details.length : ℝ)),
      top_channels := (sorted_channels.take top_n_channels).map (fun p =>
        { id := p.1.id, title := p.1.title, subscribers := p.1.subs,
          video_count := p.1.vidCount, views := p.1.viewsTotal,
          published_at := p.1.publishedAt, score := p.2 }) }

noncomputable instance scoredChannelLtDec :
    DecidableRel (fun a b : Channel × ℝ => a.2 < b.2) :=
  fun _ _ => Classical.propDecidable _

/-! ### C9: no mutation of caller-supplied records

The source never assigns into a caller-supplied video or channel dictionary:
derived scores are attached to freshly built dictionaries
(`{**ch_detail, "score": score}` at line 632, new literals elsewhere).  The
state-passing translations below therefore return the caller-owned records
unchanged next to the payload; each `_st` function is the translation of the
corresponding source function with the records it could have mutated
threaded through explicitly. -/

noncomputable def calculate_video_score_st (now : ℤ) (v : Video) : ℝ × Video :=
  (calculate_video_score now v, v)

noncomputable def calculate_channel_score_st (ch : Channel)
    (videos : List Video) : ℝ × (Channel × List Video) :=
  (calculate_channel_score ch videos, (ch, videos))

noncomputable def extract_topics_from_videos_st (videos : List Video)
    (top_n : ℕ) : List TopicEntry × List Video :=
  (extract_topics_from_videos videos top_n, videos)

noncomputable def generate_video_ideas_st (now : ℤ) (topics : List TopicEntry)
    (videos : List Video) (top_n_ideas : ℕ) :
    List VideoIdea × (List TopicEntry × List Video) :=
  (generate_video_ideas now topics videos top_n_ideas, (topics, videos))

noncomputable def compare_niches_st (now : ℤ)
    (niches_data : List (String × List Video)) :
    List (String × NicheResult) × List (String × List Video) :=
  (compare_niches now niches_data, niches_data)

noncomputable def analyze_video_trends_st (now : ℤ) (videos : List Video)
    (a b : ℕ) : TrendPayload × List Video :=
  (analyze_video_trends now videos a b, videos)

noncomputable def analyze_channel_trends_st (channels_details : List Channel)
    (videos_by_channel : Option (List (String × List Video)))
    (top_n_channels : ℕ) :
    ChannelTrendPayload × (List Channel × Option (List (String × List Video))) :=
  (analyze_channel_trends channels_details videos_by_channel top_n_channels,
   (channels_details, videos_by_channel))

/-- C9: no engine operation mutates caller-supplied records: every
state-passing translation returns the caller-owned inputs unchanged, and
derived scores live only in output-side structures. -/
theorem C9_no_input_mutation :
    (∀ (now : ℤ) (v : Video), (calculate_video_score_st now v).2 = v) ∧
    (∀ (ch : Channel) (videos : List Video),
      (calculate_channel_score_st ch videos).2 = (ch, videos)) ∧
    (∀ (videos : List Video) (n : ℕ),
      (extract_topics_from_videos_st videos n).2 = videos) ∧
    (∀ (now : ℤ) (topics : List TopicEntry) (videos : List Video) (n : ℕ),
      (generate_video_ideas_st now topics videos n).2 = (topics, videos)) ∧
    (∀ (now : ℤ) (niches : List (String × List Video)),
      (compare_niches_st now niches).2 = niches) ∧
    (∀ (now : ℤ) (videos : List Video) (a b : ℕ),
      (analyze_video_trends_st now videos a b).2 = videos) ∧
    (∀ (chs : List Channel) (vbc : Option (List (String × List Video))) (n : ℕ),
      (analyze_channel_trends_st chs vbc n).2 = (chs, vbc)) :=
  ⟨fun _ _ => rfl, fun _ _ => rfl, fun _ _ => rfl, fun _ _ _ _ => rfl,
   fun _ _ => rfl, fun _ _ _ _ => rfl, fun _ _ _ => rfl⟩

/-! ### Raw dictionary level

`PyVal` models the dynamically-typed values the source actually receives:
strings, ints and (insertion-ordered) dictionaries.  This level carries the
claims about malformed records and about dictionary key order; floats,
booleans and `None` values do not occur in the records these claims are
about and are not modelled. -/

inductive PyVal where
  | pS : String → PyVal
  | pI : ℤ → PyVal
  | pD : List (String × PyVal) → PyVal

inductive PyErr where
  | attributeError : PyErr
  | valueError : PyErr
  | typeError : PyErr
  | keyError : String → PyErr
deriving DecidableEq, Repr

/-- `d.get(k, dflt)` on a dictionary. -/
def pyGetD (d : List (String × PyVal)) (k : String) (dflt : PyVal) : PyVal :=
  (List.lookup k d).getD dflt

def digitsToNat (l : List Char) : Option ℕ :=
  if l.isEmpty then none
  else if l.all Char.isDigit then
    some (l.foldl (fun acc c => acc * 10 + (c.toNat - 48)) 0)
  else none

/-- Python `int(s)` on a string: optional surrounding whitespace, optional
sign, a non-empty digit run; anything else raises `ValueError`. -/
def parsePyInt (l : List Char) : Option ℤ :=
  let l1 := (((l.dropWhile pyIsSpace).reverse.dropWhile pyIsSpace).reverse)
  match l1 with
  | '+' :: ds => (digitsToNat ds).map (fun n => (n : ℤ))
  | '-' :: ds => (digitsToNat ds).map (fun n => -(n : ℤ))
  | ds => (digitsToNat ds).map (fun n => (n : ℤ))

/-- Python `int(x)`: ints pass through, strings are parsed (`ValueError` on
failure), dictionaries raise `TypeError`. -/
def pyInt : PyVal → Except PyErr ℤ
  | .pI n => .ok n
  | .pS s =>
      match parsePyInt s.data with
      | some n => .ok n
      | none => .error .valueError
  | .pD _ => .error .typeError

/-- `int(v.get(k, 0))` where `v` must be a dictionary (`.get` on a non-dict
raises `AttributeError`). -/
def dictGetInt (v : PyVal) (k : String) : Except PyErr ℤ :=
  match v with
  | .pD d => pyInt (pyGetD d k (.pI 0))
  | _ => .error .attributeError

/-- `v.get('statistics', {})` (raises on a non-dict record). -/
def rawStats (v : PyVal) : Except PyErr PyVal :=
  match v with
  | .pD vd => .ok (pyGetD vd "statistics" (.pD []))
  | _ => .error .attributeError

/-- Hinnant's days-from-civil-date algorithm (days since 1970-01-01). -/
def daysFromCivil (y m d : ℤ) : ℤ :=
  let y' := if m ≤ 2 then y - 1 else y
  let era := Int.fdiv y' 400
  let yoe := y' - era * 400
  let doy := Int.fdiv (153 * (m + (if 2 < m then -3 else 9)) + 2) 5 + d - 1
  let doe := yoe * 365 + Int.fdiv yoe 4 - Int.fdiv yoe 100 + doy
  era * 146097 + doe - 719468

def isLeapYear (y : ℤ) : Bool :=
  (y % 4 == 0 && y % 100 != 0) || (y % 400 == 0)

def daysInMonth (y m : ℤ) : ℤ :=
  if m = 2 then (if isLeapYear y then 29 else 28)
  else if m = 4 ∨ m = 6 ∨ m = 9 ∨ m = 11 then 30
  else 31

def charDigit (c : Char) : Option ℤ :=
  if c.isDigit then some ((c.toNat : ℤ) - 48) else none

def digits2 (a b : Char) : Option ℤ := do
  let x ← charDigit a
  let y ← charDigit b
  return x * 10 + y

def digits4 (a b c d : Char) : Option ℤ := do
  let x ← digits2 a b
  let y ← digits2 c d
  return x * 100 + y

/-- Modelled subset of `datetime.fromisoformat` (epoch seconds):
`YYYY-MM-DD(T| )HH:MM:SS` with an optional `±HH:MM` offset — the shape the
YouTube API's timestamps take after the source's `Z` replacement.  Other
shapes are treated as unparseable (the caller catches the `ValueError` and
uses recency `0`). -/
def parseIsoCore (l : List Char) : Option ℤ :=
  match l with
  | y1 :: y2 :: y3 :: y4 :: '-' :: m1 :: m2 :: '-' :: d1 :: d2 :: sep ::
      h1 :: h2 :: ':' :: n1 :: n2 :: ':' :: s1 :: s2 :: rest => do
      let y ← digits4 y1 y2 y3 y4
      let mo ← digits2 m1 m2
      let dy ← digits2 d1 d2
      let hh ← digits2 h1 h2
      let mm ← digits2 n1 n2
      let ss ← digits2 s1 s2
      if (sep = 'T' ∨ sep = ' ') ∧ 1 ≤ y ∧ 1 ≤ mo ∧ mo ≤ 12 ∧ 1 ≤ dy ∧
          dy ≤ daysInMonth y mo ∧ hh ≤ 23 ∧ mm ≤ 59 ∧ ss ≤ 59 then
        let base := daysFromCivil y mo dy * 86400 + hh * 3600 + mm * 60 + ss
        match rest with
        | [] => some base
        | sign :: o1 :: o2 :: ':' :: o3 :: o4 :: [] => do
            let oh ← digits2 o1 o2
            let om ← digits2 o3 o4
            if (sign = '+' ∨ sign = '-') ∧ oh ≤ 23 ∧ om ≤ 59 then
              let offs := oh * 3600 + om * 60
              some (if sign = '-' then base + offs else base - offs)
            else none
        | _ => none
      else none
  | _ => none

def containsChar (l : List Char) (c : Char) : Bool := l.any (· == c)

/-- `s.replace('Z', '+00:00')`. -/
def replaceZ : List Char → List Char
  | [] => []
  | c :: cs => if c = 'Z' then '+' :: '0' :: '0' :: ':' :: '0' :: '0' :: replaceZ cs
               else c :: replaceZ cs

/-- Lines 70-76: normalize the timezone suffix, then parse. -/
def pyParsePublishedAt (s : String) : Option ℤ :=
  if containsChar s.data 'Z' then parseIsoCore (replaceZ s.data)
  else if containsChar s.data '+' ∨ containsChar (s.data.drop 10) '-' then
    parseIsoCore s.data
  else parseIsoCore (s.data ++ ('+' :: '0' :: '0' :: ':' :: '0' :: '0' :: []))

/-- The value of `snippet.get('publishedAt', '')` as the recency computation
sees it: `ok none` when falsy (skip, recency `0`), `ok (some s)` for a
non-empty string, an error for a truthy non-string (`'Z' in x` raises
`TypeError`). -/
def pubValField (snip : PyVal) : Except PyErr (Option String) :=
  match snip with
  | .pD sd =>
      match pyGetD sd "publishedAt" (.pS "") with
      | .pS s => .ok (if s = "" then none else some s)
      | .pI n => if n = 0 then .ok none else .error .typeError
      | .pD dd => if dd.isEmpty then .ok none else .error .typeError
  | _ => .error .attributeError

/-- Lines 53-58 and 66: extract `viewCount`, `likeCount`, `commentCount` and
the publish string from a raw record; any failure corresponds to an
exception reaching the `except` of `calculate_video_score`. -/
def extractVideoFields (v : PyVal) :
    Except PyErr (ℤ × ℤ × ℤ × Option String) :=
  match v with
  | .pD vd =>
      let stats := pyGetD vd "statistics" (.pD [])
      let snip := pyGetD vd "snippet" (.pD [])
      do
        let vc ← dictGetInt stats "viewCount"
        let lc ← dictGetInt stats "likeCount"
        let cc ← dictGetInt stats "commentCount"
        let pub ← pubValField snip
        return (vc, lc, cc, pub)
  | _ => .error .attributeError

/-- `calculate_video_score` on a raw record (lines 36-101): any exception in
the `try` body yields `0.0`; a `ValueError` while parsing the date (lines
80-82) only zeroes the recency term. -/
noncomputable def calculate_video_score_raw (now : ℤ) (v : PyVal) : ℝ :=
  match extractVideoFields v with
  | .error _ => 0
  | .ok (vc, lc, cc, pub) =>
      let engagement_rate : ℝ :=
        if 0 < vc then ((lc : ℝ) + (cc : ℝ)) / (vc : ℝ) else 0
      let recency_score : ℝ :=
        match pub with
        | none => 0
        | some s =>
            match pyParsePublishedAt s with
            | none => 0
            | some t =>
                let d := Int.fdiv (now - t) 86400
                if 0 ≤ d then 1 / (1 + (d : ℝ)) else 0
      let normalized_views := clamp01 (log1p (vc : ℝ) / log1p 1000000000)
      pyRound4 (0.4 * normalized_views + 0.4 * min engagement_rate 1 +
        0.2 * recency_score)

/-! ### Dictionary equivalence (same mapping, any key order) -/

theorem lookup_mem {l : List (String × PyVal)} {k : String} {v : PyVal}
    (h : List.lookup k l = some v) : (k, v) ∈ l := by
  induction l with
  | nil => simp [List.lookup] at h
  | cons p t ih =>
      obtain ⟨kp, vp⟩ := p
      simp only [List.lookup] at h
      by_cases hk : k = kp
      · have hb : (k == kp) = true := beq_iff_eq.mpr hk
        simp only [hb] at h
        injection h with h
        rw [hk, h]
        exact List.mem_cons_self _ _
      · have hb : (k == kp) = false := beq_eq_false_iff_ne.mpr hk
        simp only [hb] at h
        exact List.mem_cons_of_mem _ (ih h)

theorem lookup_perm {l₁ l₂ : List (String × PyVal)} (hp : l₁.Perm l₂) :
    (l₁.map Prod.fst).Nodup → ∀ k, List.lookup k l₁ = List.lookup k l₂ := by
  induction hp with
  | nil => intro _ _; rfl
  | cons x h ih =>
      intro hn k
      obtain ⟨kx, vx⟩ := x
      simp only [List.lookup]
      by_cases hk : k = kx
      · have hb : (k == kx) = true := beq_iff_eq.mpr hk
        simp only [hb]
      · have hb : (k == kx) = false := beq_eq_false_iff_ne.mpr hk
        simp only [hb]
        exact ih (by simpa using (List.nodup_cons.mp (by simpa using hn)).2) k
  | swap x y l =>
      intro hn k
      obtain ⟨kx, vx⟩ := x
      obtain ⟨ky, vy⟩ := y
      have hne : ky ≠ kx := by
        simp only [List.map_cons, List.nodup_cons, List.mem_cons] at hn
        exact fun h => hn.1 (Or.inl h)
      simp only [List.lookup]
      by_cases h1 : k = ky <;> by_cases h2 : k = kx
      · exact absurd (h1 ▸ h2 : ky = kx) hne
      · have hb1 : (k == ky) = true := beq_iff_eq.mpr h1
        have hb2 : (k == kx) = false := beq_eq_false_iff_ne.mpr h2
        simp only [hb1, hb2]
      · have hb1 : (k == ky) = false := beq_eq_false_iff_ne.mpr h1
        have hb2 : (k == kx) = true := beq_iff_eq.mpr h2
        simp only [hb1, hb2]
      · have hb1 : (k == ky) = false := beq_eq_false_iff_ne.mpr h1
        have hb2 : (k == kx) = false := beq_eq_false_iff_ne.mpr h2
        simp only [hb1, hb2]
  | trans h₁ h₂ ih₁ ih₂ =>
      intro hn k
      have hn₂ := ((h₁.map Prod.fst).nodup_iff).mp hn
      rw [ih₁ hn k, ih₂ hn₂ k]

/-- Two raw values denote the same Python value up to dictionary key order:
leaves are equal, and dictionaries (with duplicate-free keys, as Python
dicts always have) assign equivalent values to exactly the same keys. -/
inductive PyEquiv : PyVal → PyVal → Prop where
  | str (s : String) : PyEquiv (.pS s) (.pS s)
  | int (n : ℤ) : PyEquiv (.pI n) (.pI n)
  | dict (d₁ d₂ : List (String × PyVal))
      (hn₁ : (d₁.map Prod.fst).Nodup) (hn₂ : (d₂.map Prod.fst).Nodup)
      (hnone₁ : ∀ k, List.lookup k d₁ = none → List.lookup k d₂ = none)
      (hnone₂ : ∀ k, List.lookup k d₂ = none → List.lookup k d₁ = none)
      (hsome : ∀ k v₁ v₂, List.lookup k d₁ = some v₁ →
        List.lookup k d₂ = some v₂ → PyEquiv v₁ v₂) :
      PyEquiv (.pD d₁) (.pD d₂)

theorem pyEquiv_empty : PyEquiv (.pD []) (.pD []) :=
  PyEquiv.dict [] [] (by simp) (by simp) (fun _ _ => rfl) (fun _ _ => rfl)
    (fun k v₁ v₂ h _ => by simp [List.lookup] at h)

theorem pyGetD_equiv {d₁ d₂ : List (String × PyVal)}
    (h : PyEquiv (.pD d₁) (.pD d₂)) (k : String) {dflt : PyVal}
    (hd : PyEquiv dflt dflt) :
    PyEquiv (pyGetD d₁ k dflt) (pyGetD d₂ k dflt) := by
  cases h with
  | dict _ _ hn₁ hn₂ hnone₁ hnone₂ hsome =>
      unfold pyGetD
      cases h₁ : List.lookup k d₁ with
      | none =>
          rw [hnone₁ k h₁]
          exact hd
      | some v₁ =>
          cases h₂ : List.lookup k d₂ with
          | none => exact absurd (hnone₂ k h₂) (by simp [h₁])
          | some v₂ => simpa using hsome k v₁ v₂ h₁ h₂

theorem pyEquiv_dict_empty_iff {d₁ d₂ : List (String × PyVal)}
    (h : PyEquiv (.pD d₁) (.pD d₂)) : d₁ = [] ↔ d₂ = [] := by
  cases h with
  | dict _ _ hn₁ hn₂ hnone₁ hnone₂ hsome =>
      constructor
      · intro h1
        subst h1
        cases d₂ with
        | nil => rfl
        | cons p t =>
            exfalso
            obtain ⟨kp, vp⟩ := p
            have := hnone₁ kp rfl
            simp [List.lookup] at this
      · intro h2
        subst h2
        cases d₁ with
        | nil => rfl
        | cons p t =>
            exfalso
            obtain ⟨kp, vp⟩ := p
            have := hnone₂ kp rfl
            simp [List.lookup] at this

theorem pyInt_congr {a b : PyVal} (h : PyEquiv a b) : pyInt a = pyInt b := by
  cases h <;> rfl

theorem dictGetInt_congr {a b : PyVal} (h : PyEquiv a b) (k : String) :
    dictGetInt a k = dictGetInt b k := by
  cases h with
  | str => rfl
  | int => rfl
  | dict d₁ d₂ hn₁ hn₂ h1 h2 h3 =>
      show pyInt (pyGetD d₁ k (.pI 0)) = pyInt (pyGetD d₂ k (.pI 0))
      exact pyInt_congr
        (pyGetD_equiv (PyEquiv.dict d₁ d₂ hn₁ hn₂ h1 h2 h3) k (PyEquiv.int 0))

theorem pubValField_congr {a b : PyVal} (h : PyEquiv a b) :
    pubValField a = pubValField b := by
  cases h with
  | str => rfl
  | int => rfl
  | dict d₁ d₂ hn₁ hn₂ h1 h2 h3 =>
      have hg := pyGetD_equiv (PyEquiv.dict d₁ d₂ hn₁ hn₂ h1 h2 h3)
        "publishedAt" (PyEquiv.str "")
      revert hg
      show PyEquiv (pyGetD d₁ "publishedAt" (.pS ""))
          (pyGetD d₂ "publishedAt" (.pS "")) →
        (match pyGetD d₁ "publishedAt" (.pS "") with
        | .pS s => Except.ok (if s = "" then none else some s)
        | .pI n => if n = 0 then Except.ok none else Except.error PyErr.typeError
        | .pD dd => if dd.isEmpty then Except.ok none
                    else Except.error PyErr.typeError) =
        (match pyGetD d₂ "publishedAt" (.pS "") with
        | .pS s => Except.ok (if s = "" then none else some s)
        | .pI n => if n = 0 then Except.ok none else Except.error PyErr.typeError
        | .pD dd => if dd.isEmpty then Except.ok none
                    else Except.error PyErr.typeError)
      generalize pyGetD d₁ "publishedAt" (.pS "") = a₁
      generalize pyGetD d₂ "publishedAt" (.pS "") = a₂
      intro hg
      cases hg with
      | str s => rfl
      | int n => rfl
      | dict e₁ e₂ g1 g2 g3 g4 g5 =>
          have hiff := pyEquiv_dict_empty_iff (PyEquiv.dict e₁ e₂ g1 g2 g3 g4 g5)
          by_cases he : e₁ = []
          · simp [he, hiff.mp he]
          · have he₂ : e₂ ≠ [] := fun h => he (hiff.mpr h)
            simp [List.isEmpty_iff, he, he₂]

theorem extractVideoFields_congr {v₁ v₂ : PyVal} (h : PyEquiv v₁ v₂) :
    extractVideoFields v₁ = extractVideoFields v₂ := by
  cases h with
  | str => rfl
  | int => rfl
  | dict d₁ d₂ hn₁ hn₂ h1 h2 h3 =>
      have hd := PyEquiv.dict d₁ d₂ hn₁ hn₂ h1 h2 h3
      have hstats := pyGetD_equiv hd "statistics" pyEquiv_empty
      have hsnip := pyGetD_equiv hd "snippet" pyEquiv_empty
      show (do
        let vc ← dictGetInt (pyGetD d₁ "statistics" (.pD [])) "viewCount"
        let lc ← dictGetInt (pyGetD d₁ "statistics" (.pD [])) "likeCount"
        let cc ← dictGetInt (pyGetD d₁ "statistics" (.pD [])) "commentCount"
        let pub ← pubValField (pyGetD d₁ "snippet" (.pD []))
        return (vc, lc, cc, pub)) =
        (do
        let vc ← dictGetInt (pyGetD d₂ "statistics" (.pD [])) "viewCount"
        let lc ← dictGetInt (pyGetD d₂ "statistics" (.pD [])) "likeCount"
        let cc ← dictGetInt (pyGetD d₂ "statistics" (.pD [])) "commentCount"
        let pub ← pubValField (pyGetD d₂ "snippet" (.pD []))
        return (vc, lc, cc, pub))
      rw [dictGetInt_congr hstats "viewCount", dictGetInt_congr hstats "likeCount",
        dictGetInt_congr hstats "commentCount", pubValField_congr hsnip]

/-- C8 (amended): for a fixed current time, `calculate_video_score` is a
function of the dictionary's key-value mapping only — records equal up to
dictionary key order score identically. -/
theorem C8_amended_score_ignores_key_order (now : ℤ) (v₁ v₂ : PyVal)
    (h : PyEquiv v₁ v₂) :
    calculate_video_score_raw now v₁ = calculate_video_score_raw now v₂ := by
  unfold calculate_video_score_raw
  rw [extractVideoFields_congr h]

/-- Well-formed raw values: every nested dictionary has duplicate-free keys
(as Python dictionaries always do). -/
inductive PyWf : PyVal → Prop where
  | str (s : String) : PyWf (.pS s)
  | int (n : ℤ) : PyWf (.pI n)
  | dict (d : List (String × PyVal)) (hn : (d.map Prod.fst).Nodup)
      (hv : ∀ p ∈ d, PyWf p.2) : PyWf (.pD d)

theorem pyEquiv_refl_of_wf {v : PyVal} (h : PyWf v) : PyEquiv v v := by
  induction h with
  | str s => exact PyEquiv.str s
  | int n => exact PyEquiv.int n
  | dict d hn hv ih =>
      refine PyEquiv.dict d d hn hn (fun _ h => h) (fun _ h => h) ?_
      intro k v₁ v₂ h₁ h₂
      rw [h₁] at h₂
      injection h₂ with h₂
      rw [← h₂]
      exact ih (k, v₁) (lookup_mem h₁)

/-- Reordering the entries of a well-formed dictionary yields an equivalent
dictionary. -/
theorem pyEquiv_of_perm {l₁ l₂ : List (String × PyVal)} (hp : l₁.Perm l₂)
    (hn : (l₁.map Prod.fst).Nodup) (hwf : ∀ p ∈ l₁, PyWf p.2) :
    PyEquiv (.pD l₁) (.pD l₂) := by
  have hn₂ : (l₂.map Prod.fst).Nodup := ((hp.map Prod.fst).nodup_iff).mp hn
  refine PyEquiv.dict l₁ l₂ hn hn₂ ?_ ?_ ?_
  · intro k h
    rw [← lookup_perm hp hn k]
    exact h
  · intro k h
    rw [lookup_perm hp hn k]
    exact h
  · intro k v₁ v₂ h₁ h₂
    have hm := lookup_mem h₁
    have h₁' : List.lookup k l₂ = some v₁ := by rw [← lookup_perm hp hn k]; exact h₁
    rw [h₁'] at h₂
    injection h₂ with h₂
    rw [← h₂]
    exact pyEquiv_refl_of_wf (hwf (k, v₁) hm)

def c8stats : List (String × PyVal) :=
  [("viewCount", PyVal.pI 10), ("likeCount", PyVal.pI 2),
   ("commentCount", PyVal.pI 1)]

def c8snip : List (String × PyVal) :=
  [("title", PyVal.pS "demo"),
   ("publishedAt", PyVal.pS "2020-01-02T00:00:00Z")]

/-- The same video record in two dictionary key orders. -/
def c8dictA : PyVal :=
  .pD [("id", PyVal.pS "v1"), ("statistics", PyVal.pD c8stats),
       ("snippet", PyVal.pD c8snip)]

def c8dictB : PyVal :=
  .pD [("statistics", PyVal.pD c8stats), ("id", PyVal.pS "v1"),
       ("snippet", PyVal.pD c8snip)]

/-- Witness for C8 (amended): a concrete record scores identically in two
key orders. -/
theorem C8_witness :
    calculate_video_score_raw 0 c8dictA = calculate_video_score_raw 0 c8dictB := by
  refine C8_amended_score_ignores_key_order 0 c8dictA c8dictB ?_
  refine pyEquiv_of_perm (List.Perm.swap ("statistics", PyVal.pD c8stats)
    ("id", PyVal.pS "v1") [("snippet", PyVal.pD c8snip)]) (by decide) ?_
  intro p hp
  simp only [List.mem_cons, List.not_mem_nil, or_false] at hp
  rcases hp with h | h | h
  · rw [h]
    exact PyWf.str "v1"
  · rw [h]
    refine PyWf.dict c8stats (by decide) ?_
    intro q hq
    simp only [c8stats, List.mem_cons, List.not_mem_nil, or_false] at hq
    rcases hq with h' | h' | h' <;> rw [h']
    · exact PyWf.int 10
    · exact PyWf.int 2
    · exact PyWf.int 1
  · rw [h]
    refine PyWf.dict c8snip (by decide) ?_
    intro q hq
    simp only [c8snip, List.mem_cons, List.not_mem_nil, or_false] at hq
    rcases hq with h' | h' <;> rw [h']
    · exact PyWf.str "demo"
    · exact PyWf.str "2020-01-02T00:00:00Z"

/-- A zero-view record with a publish date, for the clock-dependence
counterexample. -/
def c8vid : PyVal :=
  .pD [("statistics", PyVal.pD [("viewCount", PyVal.pI 0)]),
       ("snippet", PyVal.pD
         [("publishedAt", PyVal.pS "2020-01-01T00:00:00Z")])]

theorem c8vid_fields :
    extractVideoFields c8vid =
      .ok (0, 0, 0, some "2020-01-01T00:00:00Z") := by
  rfl

theorem c8vid_parse :
    pyParsePublishedAt "2020-01-01T00:00:00Z" = some 1577836800 := by
  decide

theorem c8vid_score (now : ℤ) :
    calculate_video_score_raw now c8vid =
      pyRound4 (0.2 * (if 0 ≤ Int.fdiv (now - 1577836800) 86400 then
        1 / (1 + (Int.fdiv (now - 1577836800) 86400 : ℝ)) else 0)) := by
  unfold calculate_video_score_raw
  rw [c8vid_fields]
  simp only [c8vid_parse, Int.cast_zero, log1p_zero, zero_div, clamp01_zero,
    mul_zero, zero_add, lt_irrefl, if_false]
  norm_num

/-- C8 counterexample: the score of the same record read at two different
current times differs — `calculate_video_score` depends on the ambient
clock (`datetime.now`) through the recency term, i.e. on state outside the
input record. -/
theorem C8_counterexample_clock_dependence :
    calculate_video_score_raw 1577836800 c8vid ≠
      calculate_video_score_raw 1577923200 c8vid := by
  rw [c8vid_score, c8vid_score]
  have h1 : Int.fdiv (1577836800 - 1577836800) 86400 = 0 := by decide
  have h2 : Int.fdiv (1577923200 - 1577836800) 86400 = 1 := by decide
  rw [h1, h2]
  norm_num
  rw [pyRound4_of_mul_eq (n := 2000) (by norm_num),
    pyRound4_of_mul_eq (n := 1000) (by norm_num)]
  norm_num

/-! ### `extract_topics_from_videos` on raw records (claim C4)

The accumulation loop of lines 211-241 converts statistics with bare
`int(...)` and reads `video['id']` with a bare subscript: a record with a
non-numeric statistics value or (once a pattern matches) a missing `id`
raises and aborts the whole batch — only `re.error` is caught (line 242). -/

/-- A hashable id value (string or int). -/
inductive PyKey where
  | ks : String → PyKey
  | ki : ℤ → PyKey
deriving DecidableEq, Repr

structure TDataRaw where
  total_views : ℤ
  total_eng : ℤ
  video_ids : List PyKey
deriving DecidableEq, Repr

/-- `video['id']` (line 240): `KeyError` when absent; a dict id could not be
added to the `video_ids` set anyway (unhashable `TypeError`). -/
def rawVideoId (v : PyVal) : Except PyErr PyKey :=
  match v with
  | .pD vd =>
      match List.lookup "id" vd with
      | some (.pS s) => .ok (.ks s)
      | some (.pI n) => .ok (.ki n)
      | some (.pD _) => .error .typeError
      | none => .error (.keyError "id")
  | _ => .error .attributeError

/-- Line 212: `video.get('snippet', {}).get('title', '').lower()`. -/
def rawTitle (v : PyVal) : Except PyErr (List Char) :=
  match v with
  | .pD vd =>
      match pyGetD vd "snippet" (.pD []) with
      | .pD sd =>
          match pyGetD sd "title" (.pS "") with
          | .pS s => .ok (s.data.map Char.toLower)
          | _ => .error .attributeError
      | _ => .error .attributeError
  | _ => .error .attributeError

def tpUpdateRaw (tp : List (String × TDataRaw)) (name : String) (vc eng : ℤ)
    (vid : PyKey) : List (String × TDataRaw) :=
  match tp with
  | [] => [(name, ⟨vc, eng, [vid]⟩)]
  | (k, d) :: rest =>
      if k = name then
        (k, TDataRaw.mk (d.total_views + vc) (d.total_eng + eng)
             (if vid ∈ d.video_ids then d.video_ids else d.video_ids ++ [vid]))
          :: rest
      else (k, d) :: tpUpdateRaw rest name vc eng vid

def procMatchRaw (v : PyVal) (vc eng : ℤ)
    (st : List (String × TDataRaw) × List String) (m : List Char) :
    Except PyErr (List (String × TDataRaw) × List String) :=
  let norm := normalizeTopic m
  if 2 < norm.length ∧ norm ∉ st.2 then do
    let vid ← rawVideoId v
    return (tpUpdateRaw st.1 norm vc eng vid, st.2 ++ [norm])
  else .ok st

def procVideoRaw (tp : List (String × TDataRaw)) (v : PyVal) :
    Except PyErr (List (String × TDataRaw)) := do
  let title ← rawTitle v
  let stats ← rawStats v
  let vc ← dictGetInt stats "viewCount"
  let lc ← dictGetInt stats "likeCount"
  let cc ← dictGetInt stats "commentCount"
  let eng := if 0 < vc then lc + cc else 0
  let r ← common_keywords_patterns.foldlM
    (fun st pat => (findAll pat title).foldlM (procMatchRaw v vc eng) st)
    (tp, [])
  return r.1

def topicPerformanceRaw (videos : List PyVal) :
    Except PyErr (List (String × TDataRaw)) :=
  videos.foldlM procVideoRaw []

structure TopicEntryRaw where
  name : String
  aggregated_views : ℤ
  avg_views_per_video : ℤ
  avg_engagement_score_per_video : ℝ
  video_count : ℕ
  composite_score : ℝ

noncomputable def mkTopicEntryRaw (p : String × TDataRaw) : TopicEntryRaw :=
  let k := p.2.video_ids.length
  { name := p.1
    aggregated_views := p.2.total_views
    avg_views_per_video := roundHalfEven ((p.2.total_views : ℝ) / (k : ℝ))
    avg_engagement_score_per_video := pyRound2 ((p.2.total_eng : ℝ) / (k : ℝ))
    video_count := k
    composite_score := (log1p ((p.2.total_views : ℝ) / (k : ℝ)) +
      log1p ((p.2.total_eng : ℝ) / (k : ℝ))) * log1p (k : ℝ) }

def topicLtRaw (a b : TopicEntryRaw) : Prop :=
  a.composite_score < b.composite_score ∨
    (a.composite_score = b.composite_score ∧ a.video_count < b.video_count)

noncomputable instance topicLtRawDec : DecidableRel topicLtRaw :=
  fun _ _ => Classical.propDecidable _

noncomputable def extract_topics_from_videos_raw (videos : List PyVal)
    (top_n : ℕ) : Except PyErr (List TopicEntryRaw) :=
  if videos.isEmpty then .ok []
  else do
    let tp ← topicPerformanceRaw videos
    return (sortDesc topicLtRaw
      ((tp.filter (fun p => ¬ p.2.video_ids.isEmpty)).map
        mkTopicEntryRaw)).take top_n

/-- `total_views` of `compare_niches` (line 479):
`sum(int(v.get('statistics', {}).get('viewCount', 0)) for v in videos)` —
an unguarded `int(...)` per record. -/
def nicheTotalViewsRaw (videos : List PyVal) : Except PyErr ℤ :=
  videos.foldlM (fun acc v => do
    let st ← rawStats v
    let vc ← dictGetInt st "viewCount"
    return acc + vc) 0

def c4goodA : PyVal :=
  PyVal.pD [("id", PyVal.pS "g1"),
    ("snippet", PyVal.pD [("title", PyVal.pS "Easy Pasta Recipe")]),
    ("statistics", PyVal.pD [("viewCount", PyVal.pI 100)])]

/-- Malformed: well-formed snippet and statistics but no `id` key. -/
def c4noId : PyVal :=
  PyVal.pD [("snippet", PyVal.pD [("title", PyVal.pS "How to Cook Rice")]),
    ("statistics", PyVal.pD [("viewCount", PyVal.pI 5)])]

def c4goodB : PyVal :=
  PyVal.pD [("id", PyVal.pS "g3"),
    ("snippet", PyVal.pD [("title", PyVal.pS "Ultimate Guide")]),
    ("statistics", PyVal.pD [("viewCount", PyVal.pI 50)])]

def c4batch : List PyVal := [c4goodA, c4noId, c4goodB]

/-- Malformed: non-numeric `viewCount`. -/
def c4badStats : PyVal :=
  PyVal.pD [("id", PyVal.pS "g2"),
    ("snippet", PyVal.pD [("title", PyVal.pS "Nice Video")]),
    ("statistics", PyVal.pD [("viewCount", PyVal.pS "abc")])]

/-- C4: the batch operations do NOT recover from one malformed record among
well-formed ones: `extract_topics_from_videos` raises `KeyError('id')` on a
pattern-matching record without an `id` (line 240 uses a bare subscript)
and the whole batch is discarded; `compare_niches`' `total_views` sum
raises `ValueError` on a non-numeric `viewCount` (line 479). -/
theorem C4_batch_aborts_on_malformed_record :
    topicPerformanceRaw c4batch = .error (.keyError "id") ∧
    extract_topics_from_videos_raw c4batch 20 = .error (.keyError "id") ∧
    nicheTotalViewsRaw [c4goodA, c4badStats, c4goodB] = .error .valueError := by
  refine ⟨by rfl, ?_, by rfl⟩
  unfold extract_topics_from_videos_raw
  rw [if_neg (by decide : ¬ (c4batch.isEmpty = true))]
  rw [show topicPerformanceRaw c4batch = .error (.keyError "id") from rfl]
  rfl
